import Mathlib

/-!
Verification of the telescope command-queue subsystem of MoonPanoramaMaker
(`Source/telescope.py`): the instruction queue served by the worker thread
`OperateTelescopeASCOM.run`, the facade `Telescope`, the guiding control law,
the calibration procedure and the readout correction.

Modelling conventions:
* Angles, rates and times are modelled as exact rationals (the source uses
  Python floats).  Where the source uses the constant `math.pi`, the Lean
  definitions take the value of pi as an explicit parameter `piv`, so the
  algebra of the wrap formula is preserved exactly.
* Driver readings (`self.tel.RightAscension`, `Declination`,
  `time.mktime(...)`) consumed while one instruction executes are supplied
  by an `Env` record, one per worker loop iteration.
* The shared instruction templates of the source are dictionaries keyed by a
  `name` string; queue membership and `remove_instruction` compare by that
  name, which the inductive `Inst` mirrors through `Inst.name`.
-/

namespace MPM

/-- Instruction kinds of `OperateTelescopeASCOM.__init__`, with the
parameter fields the worker reads from the instruction dictionary. -/
inductive Inst where
  | slewTo (rect decl : ℚ)
  | lookupTelPosition
  | calibrate (calibratePulseLength : ℤ)
  | startGuiding (rateRa rateDe : ℚ)
  | continueGuiding
  | stopGuiding
  | startMovingNorth
  | stopMovingNorth
  | startMovingSouth
  | stopMovingSouth
  | startMovingEast
  | stopMovingEast
  | startMovingWest
  | stopMovingWest
  | pulseCorrection (direction : Nat) (pulseLength : ℤ)
  | terminate
deriving DecidableEq

/-- The `name` field of the instruction dictionaries (the discriminator used
by `run` and by `remove_instruction`). -/
def Inst.name : Inst → String
  | .slewTo _ _ => "slew to"
  | .lookupTelPosition => "lookup tel position"
  | .calibrate _ => "calibrate"
  | .startGuiding _ _ => "start guiding"
  | .continueGuiding => "continue guiding"
  | .stopGuiding => "stop guiding"
  | .startMovingNorth => "start moving north"
  | .stopMovingNorth => "stop moving north"
  | .startMovingSouth => "start moving south"
  | .stopMovingSouth => "stop moving south"
  | .startMovingEast => "start moving east"
  | .stopMovingEast => "stop moving east"
  | .startMovingWest => "start moving west"
  | .stopMovingWest => "stop moving west"
  | .pulseCorrection _ _ => "pulse correction"
  | .terminate => "terminate"

/-- `self.instructions.insert(0, x)`: insertion at the head (index 0). -/
def insertHead (x : Inst) (q : List Inst) : List Inst := x :: q

/-- `self.instructions.append(x)`: insertion at the tail. -/
def appendTail (x : Inst) (q : List Inst) : List Inst := q ++ [x]

/-- `self.instructions.pop()`: Python `list.pop()` with no argument removes
and returns the LAST element, so the worker serves the queue at its tail. -/
def nextInstruction (q : List Inst) : Option Inst := q.getLast?

/-- Number of queued instructions bearing a given name. -/
def countName (n : String) (q : List Inst) : Nat :=
  q.countP (fun x => x.name == n)

/-- `list.remove(inst)`: removes the first element equal to `inst`.  All
queue entries of one kind are the same shared template dictionary, and
dictionaries of distinct kinds differ in their `name` field, so equality
with `inst` is equality of the `name` discriminator. -/
def removeFirstName (n : String) : List Inst → List Inst
  | [] => []
  | x :: xs => if x.name = n then xs else x :: removeFirstName n xs

/-- One pass of the `for inst in self.instructions: ... remove(inst)` loop of
`remove_instruction`, with Python's for-statement semantics: an internal
index advances by one per iteration over the list being mutated, so a
removal shifts the following element under the cursor and it is skipped.
`fuel` bounds the iteration count; `l.length` suffices because the index
grows by one per step while the list never grows. -/
def pyRemoveLoop (n : String) : Nat → List Inst → Nat → List Inst
  | 0, l, _ => l
  | fuel + 1, l, i =>
    if h : i < l.length then
      if (l.get ⟨i, h⟩).name = n then
        pyRemoveLoop n fuel (removeFirstName n l) (i + 1)
      else
        pyRemoveLoop n fuel l (i + 1)
    else l

/-- `OperateTelescopeASCOM.remove_instruction`: remove the queued
instructions of the given kind (loop-with-removal semantics as above). -/
def remove_instruction (n : String) (l : List Inst) : List Inst :=
  pyRemoveLoop n l.length l 0

/-- The configuration parameters of section ASCOM consumed by the worker
loop (seconds, as rationals). -/
structure Config where
  pollingInterval : ℚ
  guidingInterval : ℚ
deriving DecidableEq

/-- The local variables of `run` captured by "start guiding" and consumed by
every subsequent "continue guiding": start time, start position and rates
(radians and radians/second in the source), plus the per-axis direction
codes chosen from the sign of each rate. -/
structure GuideState where
  startTime : ℚ
  startRa : ℚ
  startDe : ℚ
  rateRa : ℚ
  rateDe : ℚ
  dirRa : Nat
  dirDe : Nat
deriving DecidableEq

/-- Driver readings and the wall clock consumed during one loop iteration:
`time` is `time.mktime(datetime.now().timetuple())`, `ra`/`de` the first
position read-back of the iteration, `ra2`/`de2` the read-back after the
calibration test pulse on the respective axis.  Position values are taken
after the fixed positive unit conversions of the source (`radians(x * 15.)`
for RA, `radians(x)` for DE), which are strictly monotone and therefore
immaterial to the comparisons the worker performs. -/
structure Env where
  time : ℚ
  ra : ℚ
  de : ℚ
  ra2 : ℚ
  de2 : ℚ
deriving DecidableEq

/-- Observable state of the `OperateTelescopeASCOM` worker: the instruction
queue, the four direction codes, the guiding session (if any), the log of
`PulseGuide(code, length_ms)` calls issued so far, the results and
`finished` flags stored back into the shared instruction templates, and
whether the loop hit "terminate". -/
structure WorkerState where
  instructions : List Inst
  dirNorth : Nat
  dirSouth : Nat
  dirEast : Nat
  dirWest : Nat
  guide : Option GuideState
  pulses : List (Nat × ℤ)
  lookupRa : ℚ
  lookupDe : ℚ
  finLookup : Bool
  finCalibrate : Bool
  finStopGuiding : Bool
  finStopMovingNorth : Bool
  finStopMovingSouth : Bool
  finStopMovingEast : Bool
  finStopMovingWest : Bool
  finPulseCorrection : Bool
  terminated : Bool
deriving DecidableEq

/-- `OperateTelescopeASCOM.__init__`: empty queue and the default ASCOM
direction codes north = 0, south = 1, east = 2, west = 3. -/
def initialWorkerState : WorkerState where
  instructions := []
  dirNorth := 0
  dirSouth := 1
  dirEast := 2
  dirWest := 3
  guide := none
  pulses := []
  lookupRa := 0
  lookupDe := 0
  finLookup := false
  finCalibrate := false
  finStopGuiding := false
  finStopMovingNorth := false
  finStopMovingSouth := false
  finStopMovingEast := false
  finStopMovingWest := false
  finPulseCorrection := false
  terminated := false

/-- `numpy.sign` on rationals. -/
def npSign (x : ℚ) : ℤ :=
  if 0 < x then 1 else if x < 0 then -1 else 0

/-- Direction selection of the "start guiding" branch:
`direction = positive_code if numpy.sign(rate) > 0 else negative_code`. -/
def guideDirection (rate : ℚ) (dirPos dirNeg : Nat) : Nat :=
  if npSign rate > 0 then dirPos else dirNeg

/-- Per-axis pulse test of the "continue guiding" branch:
`abs(target - start) > abs(current - start)` where
`target = start + rate * (current_time - start_time)`. -/
def pulseCond (start rate t0 t cur : ℚ) : Bool :=
  decide (|start + rate * (t - t0) - start| > |cur - start|)

/-- Execute one popped instruction against the driver environment:
the dispatch of `OperateTelescopeASCOM.run` (one `elif` branch per kind).
`s` already has the popped instruction removed from `instructions`. -/
def execInst (cfg : Config) (s : WorkerState) (env : Env) : Inst → WorkerState
  | .slewTo _ _ =>
      -- `SlewToCoordinates` touches only the driver, no worker state.
      s
  | .lookupTelPosition =>
      -- The settling loop samples the driver until stationary; `env`
      -- supplies the settled reading.  Result copied into the instruction.
      { s with lookupRa := env.ra, lookupDe := env.de, finLookup := true }
  | .calibrate len =>
      let s1 := { s with pulses := s.pulses ++ [(2, len)] }
      let s2 := if env.ra2 < env.ra
        then { s1 with dirEast := 3, dirWest := 2 } else s1
      let s3 := { s2 with pulses := s2.pulses ++ [(0, len)] }
      let s4 := if env.de2 < env.de
        then { s3 with dirNorth := 1, dirSouth := 0 } else s3
      { s4 with finCalibrate := true }
  | .startGuiding rateRa rateDe =>
      { s with
        guide := some
          { startTime := env.time, startRa := env.ra, startDe := env.de,
            rateRa := rateRa, rateDe := rateDe,
            dirRa := guideDirection rateRa s.dirEast s.dirWest,
            dirDe := guideDirection rateDe s.dirNorth s.dirSouth },
        instructions := insertHead .continueGuiding s.instructions }
  | .continueGuiding =>
      match s.guide with
      | none =>
          -- The source would fault here on unbound locals: "continue
          -- guiding" is only ever queued by "start guiding".
          { s with instructions := insertHead .continueGuiding s.instructions }
      | some g =>
          let msec : ℤ := ⌊cfg.guidingInterval * 1000⌋
          let p1 := if pulseCond g.startRa g.rateRa g.startTime env.time env.ra
            then s.pulses ++ [(g.dirRa, msec)] else s.pulses
          let p2 := if pulseCond g.startDe g.rateDe g.startTime env.time env.de
            then p1 ++ [(g.dirDe, msec)] else p1
          { s with pulses := p2,
                   instructions := insertHead .continueGuiding s.instructions }
  | .stopGuiding =>
      { s with instructions := remove_instruction "continue guiding" s.instructions,
               finStopGuiding := true }
  | .startMovingNorth =>
      { s with pulses := s.pulses ++ [(s.dirNorth, ⌊cfg.pollingInterval * 1000⌋)],
               instructions := insertHead .startMovingNorth s.instructions }
  | .stopMovingNorth =>
      { s with instructions := remove_instruction "start moving north" s.instructions,
               finStopMovingNorth := true }
  | .startMovingSouth =>
      { s with pulses := s.pulses ++ [(s.dirSouth, ⌊cfg.pollingInterval * 1000⌋)],
               instructions := insertHead .startMovingSouth s.instructions }
  | .stopMovingSouth =>
      { s with instructions := remove_instruction "start moving south" s.instructions,
               finStopMovingSouth := true }
  | .startMovingEast =>
      { s with pulses := s.pulses ++ [(s.dirEast, ⌊cfg.pollingInterval * 1000⌋)],
               instructions := insertHead .startMovingEast s.instructions }
  | .stopMovingEast =>
      { s with instructions := remove_instruction "start moving east" s.instructions,
               finStopMovingEast := true }
  | .startMovingWest =>
      { s with pulses := s.pulses ++ [(s.dirWest, ⌊cfg.pollingInterval * 1000⌋)],
               instructions := insertHead .startMovingWest s.instructions }
  | .stopMovingWest =>
      { s with instructions := remove_instruction "start moving west" s.instructions,
               finStopMovingWest := true }
  | .pulseCorrection direction len =>
      -- `[north, south, east, west][instruction['direction']]`; the facade
      -- documents `direction` as one of 0, 1, 2, 3.
      let code := [s.dirNorth, s.dirSouth, s.dirEast, s.dirWest].getD direction s.dirNorth
      { s with pulses := s.pulses ++ [(code, len)], finPulseCorrection := true }
  | .terminate =>
      { s with terminated := true }

/-- One iteration of the worker loop of `OperateTelescopeASCOM.run`: if the
queue is non-empty, pop an instruction (`list.pop()` takes the tail) and
execute it; otherwise sleep one polling interval. -/
def step (cfg : Config) (s : WorkerState) (env : Env) : WorkerState :=
  match nextInstruction s.instructions with
  | none => s
  | some instruction =>
      execInst cfg { s with instructions := s.instructions.dropLast } env instruction

/-- Python's `%` on floats with a positive right operand:
`x % m = x - m * floor(x / m)` (result has the sign of `m`). -/
def pymod (x m : ℚ) : ℚ := x - m * ↑⌊x / m⌋

/-- The RA readout correction computed at the end of `Telescope.slew_to`:
`(ra - rect_lookup + pi) % (2 * pi) - pi`.  `piv` stands for the constant
`math.pi` of the source. -/
def readout_correction_ra (piv ra rect_lookup : ℚ) : ℚ :=
  pymod (ra - rect_lookup + piv) (2 * piv) - piv

/-- The DE readout correction computed at the end of `Telescope.slew_to`:
`de - decl_lookup`, unwrapped. -/
def readout_correction_de (de decl_lookup : ℚ) : ℚ := de - decl_lookup

/-- The driver of the round-trip property: reported position = actual
position plus a fixed systematic offset, no noise. -/
def biased_lookup (bias actual : ℚ) : ℚ := actual + bias

/-- `Telescope.slew_to` against the biased driver: the mount settles on the
target `(ra, de)`, the uncorrected look-up returns the biased reading, and
both readout corrections are stored. -/
def slew_to_corrections (piv biasRa biasDe ra de : ℚ) : ℚ × ℚ :=
  (readout_correction_ra piv ra (biased_lookup biasRa ra),
   readout_correction_de de (biased_lookup biasDe de))

/-- `Telescope.lookup_tel_position` (corrected variant): adds the stored
correction pair to the raw look-up. -/
def lookup_tel_position (corr : ℚ × ℚ) (rawRa rawDe : ℚ) : ℚ × ℚ :=
  (rawRa + corr.1, rawDe + corr.2)

/-- The two shared fields of the worker the facade constructor polls:
`initialization_error` and `initialized`. -/
structure WorkerObs where
  errorMsg : String
  inited : Bool
deriving DecidableEq

/-- The exceptions `Telescope.__init__` can raise (`TelescopeException`
carrying either the worker's error string or the fixed timeout message). -/
inductive TelErr where
  | connection (msg : String)
  | timeout
deriving DecidableEq

/-- The check after the polling loop of `Telescope.__init__`:
`if not self.optel.initialized: raise TelescopeException("Timeout ...")`. -/
def initFinalCheck (s : Nat → WorkerObs) (j : Nat) : Except TelErr Unit :=
  if (s j).inited then Except.ok () else Except.error TelErr.timeout

/-- The polling loop of `Telescope.__init__`: up to
`polling_time_out_count` iterations, each first raising on a non-empty
error string, then breaking once `initialized` is observed; `s` gives the
worker-shared fields as seen at each poll, `i` the poll index and the
second argument the remaining iterations. -/
def telescopeInitLoop (s : Nat → WorkerObs) : Nat → Nat → Except TelErr Unit
  | i, 0 => initFinalCheck s i
  | i, r + 1 =>
    if (s i).errorMsg ≠ "" then Except.error (TelErr.connection (s i).errorMsg)
    else if (s i).inited then initFinalCheck s i
    else telescopeInitLoop s (i + 1) r

/-- `Telescope.__init__` after starting the worker thread: poll the shared
fields `polling_time_out_count` times, then run the final timeout check. -/
def telescope_init (count : Nat) (s : Nat → WorkerObs) : Except TelErr Unit :=
  telescopeInitLoop s 0 count

/-- The initialization phase of `OperateTelescopeASCOM.run`: the pythoncom
import, then `connect_and_test_telescope` / `switch_on_tracking` /
`set_pulse_guide_speed` (summarized as `connectResult`, carrying `str(e)`
on failure).  Returns the shared fields it leaves behind and whether the
thread entered the main instruction loop. -/
def workerStartup (importOk : Bool) (connectResult : Except String Unit) :
    WorkerObs × Bool :=
  if !importOk then
    ({ errorMsg := "Pythoncom module could not be imported. Is this a Windows system?",
       inited := false }, false)
  else
    match connectResult with
    | .error msg => ({ errorMsg := msg, inited := false }, false)
    | .ok _ => ({ errorMsg := "", inited := true }, true)

/-- The shared fields as the facade can observe them over time: before the
worker's startup phase completes (polls `0, ..., t-1`) both fields are at
their `__init__` defaults; from poll `t` on they hold the worker's final
observation. -/
def workerTrace (t : Nat) (final : WorkerObs) (i : Nat) : WorkerObs :=
  if i < t then { errorMsg := "", inited := false } else final

/-! Helper lemmas about `remove_instruction` and the worker step. -/

theorem countName_eq_zero_iff (n : String) (l : List Inst) :
    countName n l = 0 ↔ ∀ x ∈ l, x.name ≠ n := by
  simp [countName, List.countP_eq_zero]

theorem pyRemoveLoop_clean (n : String) :
    ∀ (fuel : Nat) (l : List Inst), (∀ x ∈ l, x.name ≠ n) →
      ∀ i, pyRemoveLoop n fuel l i = l := by
  intro fuel
  induction fuel with
  | zero => intro l _ i; rfl
  | succ f ih =>
    intro l hl i
    unfold pyRemoveLoop
    by_cases h : i < l.length
    · have hx : (l.get ⟨i, h⟩).name ≠ n := hl _ (l.get_mem i h)
      rw [dif_pos h, if_neg hx]
      exact ih l hl (i + 1)
    · simp [h]

theorem removeFirstName_append_clean (n : String) (a : List Inst) (c : Inst) (b : List Inst)
    (ha : ∀ x ∈ a, x.name ≠ n) (hc : c.name = n) :
    removeFirstName n (a ++ c :: b) = a ++ b := by
  induction a with
  | nil => simp [removeFirstName, hc]
  | cons x xs ih =>
    have hx : x.name ≠ n := ha x (by simp)
    show (if x.name = n then xs ++ c :: b else x :: removeFirstName n (xs ++ c :: b)) = _
    rw [if_neg hx, ih (fun y hy => ha y (by simp [hy]))]
    simp

theorem pyRemoveLoop_one (n : String) (a : List Inst) (c : Inst) (b : List Inst)
    (ha : ∀ x ∈ a, x.name ≠ n) (hc : c.name = n) (hb : ∀ x ∈ b, x.name ≠ n) :
    ∀ (fuel i : Nat), i ≤ a.length → (a ++ c :: b).length - i ≤ fuel →
      pyRemoveLoop n fuel (a ++ c :: b) i = a ++ b := by
  have hab : ∀ x ∈ a ++ b, x.name ≠ n := by
    intro x hx
    rcases List.mem_append.mp hx with h | h
    exacts [ha x h, hb x h]
  intro fuel
  induction fuel with
  | zero =>
    intro i hi hf
    exfalso
    simp only [List.length_append, List.length_cons] at hf
    omega
  | succ f ih =>
    intro i hi hf
    have hil : i < (a ++ c :: b).length := by
      simp only [List.length_append, List.length_cons]; omega
    unfold pyRemoveLoop
    simp only [hil, dif_pos]
    rcases lt_or_eq_of_le hi with hlt | heq
    · have hget : (a ++ c :: b).get ⟨i, hil⟩ = a.get ⟨i, hlt⟩ := by
        simp [List.get_eq_getElem, List.getElem_append_left hlt]
      have hx : ((a ++ c :: b).get ⟨i, hil⟩).name ≠ n := by
        rw [hget]; exact ha _ (a.get_mem i hlt)
      rw [if_neg hx]
      refine ih (i + 1) hlt ?_
      simp only [List.length_append, List.length_cons] at hf ⊢
      omega
    · have hget : (a ++ c :: b).get ⟨i, hil⟩ = c := by
        simp only [List.get_eq_getElem]
        exact List.getElem_of_append rfl heq.symm
      rw [hget, if_pos hc, removeFirstName_append_clean n a c b ha hc]
      exact pyRemoveLoop_clean n f (a ++ b) hab (i + 1)

theorem countName_one_decomp (n : String) :
    ∀ l : List Inst, countName n l = 1 →
      ∃ a c b, l = a ++ c :: b ∧ c.name = n ∧
        (∀ x ∈ a, x.name ≠ n) ∧ (∀ x ∈ b, x.name ≠ n) := by
  intro l
  induction l with
  | nil => intro h; simp [countName] at h
  | cons x xs ih =>
    intro h
    by_cases hx : x.name = n
    · have hxs : countName n xs = 0 := by
        simp [countName, List.countP_cons, hx] at h ⊢
        exact h
      exact ⟨[], x, xs, by simp, hx, by simp,
        (countName_eq_zero_iff n xs).mp hxs⟩
    · have hxs : countName n xs = 1 := by
        simp [countName, List.countP_cons, hx] at h ⊢
        exact h
      obtain ⟨a, c, b, rfl, hc, ha, hb⟩ := ih hxs
      refine ⟨x :: a, c, b, by simp, hc, ?_, hb⟩
      intro y hy
      rcases List.mem_cons.mp hy with rfl | hy
      exacts [hx, ha y hy]

theorem remove_instruction_of_count_le_one (n : String) (l : List Inst)
    (h : countName n l ≤ 1) : countName n (remove_instruction n l) = 0 := by
  rcases Nat.le_one_iff_eq_zero_or_eq_one.mp h with h0 | h1
  · rw [remove_instruction,
      pyRemoveLoop_clean n l.length l ((countName_eq_zero_iff n l).mp h0) 0]
    exact h0
  · obtain ⟨a, c, b, rfl, hc, ha, hb⟩ := countName_one_decomp n l h1
    rw [remove_instruction, pyRemoveLoop_one n a c b ha hc hb _ 0 (Nat.zero_le _) (by simp)]
    refine (countName_eq_zero_iff n (a ++ b)).mpr ?_
    intro x hx
    rcases List.mem_append.mp hx with hxa | hxb
    exacts [ha x hxa, hb x hxb]

theorem step_concat (cfg : Config) (s : WorkerState) (env : Env) (q : List Inst) (x : Inst)
    (h : s.instructions = q ++ [x]) :
    step cfg s env = execInst cfg { s with instructions := q } env x := by
  simp [step, nextInstruction, h, List.getLast?_concat, List.dropLast_concat]

/-! Concrete configuration and environment used by witnesses and
counterexamples. -/

def cfgUnit : Config := ⟨1, 1⟩

def envZero : Env := ⟨0, 0, 0, 0, 0⟩

/-! Claim C1: which queued instruction the worker executes next. -/

/-- C1 counterexample: with "stop guiding" just head-inserted in front of an
already queued "lookup tel position", the worker pops and executes the
lookup (the tail), not the head-inserted instruction: the executed one is
the lookup, whose finished flag is set, while the stop-guiding flag stays
unset and "stop guiding" is still queued. -/
theorem c1_head_insertion_counterexample :
    nextInstruction (insertHead Inst.stopGuiding [Inst.lookupTelPosition]) =
      some Inst.lookupTelPosition ∧
    Inst.lookupTelPosition ≠ Inst.stopGuiding ∧
    (step cfgUnit { initialWorkerState with
        instructions := insertHead Inst.stopGuiding [Inst.lookupTelPosition] }
      envZero).finLookup = true ∧
    (step cfgUnit { initialWorkerState with
        instructions := insertHead Inst.stopGuiding [Inst.lookupTelPosition] }
      envZero).finStopGuiding = false ∧
    (step cfgUnit { initialWorkerState with
        instructions := insertHead Inst.stopGuiding [Inst.lookupTelPosition] }
      envZero).instructions = [Inst.stopGuiding] := by
  decide

/-- C1 (amended): `list.pop()` takes the tail, so for every non-empty queue
the worker executes next the instruction at the LAST position; inserting an
instruction at the head of a non-empty queue does not change which
instruction runs next, i.e. a head-inserted instruction runs after every
instruction that was already queued (FIFO, not stack, discipline). -/
theorem c1_worker_pops_tail (x : Inst) (q : List Inst) (h : q ≠ []) :
    nextInstruction (insertHead x q) = nextInstruction q ∧
    nextInstruction q = some (q.getLast h) := by
  constructor
  · cases q with
    | nil => exact absurd rfl h
    | cons y ys => simp [nextInstruction, insertHead]
  · simp [nextInstruction, List.getLast?_eq_getLast q h]

/-- C1 witness: the amended theorem applied to the two-instruction queue of
the counterexample scenario. -/
theorem c1_worker_pops_tail_witness :
    nextInstruction (insertHead Inst.stopGuiding [Inst.lookupTelPosition]) =
      nextInstruction [Inst.lookupTelPosition] ∧
    nextInstruction [Inst.lookupTelPosition] =
      some ([Inst.lookupTelPosition].getLast (by decide)) :=
  c1_worker_pops_tail Inst.stopGuiding [Inst.lookupTelPosition] (by decide)

/-! Claim C2: interaction of a queued "start moving X" with a tail-appended
"stop moving X". -/

/-- Queue state of the C2 scenario: "start moving north" queued (after a
`move_north` call), then the facade's `stop_move_north` appends
"stop moving north" at the tail. -/
def startStopNorthState : WorkerState :=
  { initialWorkerState with
    instructions := appendTail Inst.stopMovingNorth [Inst.startMovingNorth] }

/-- C2 counterexample: the worker pops the tail, so the appended
"stop moving north" executes IMMEDIATELY, before the queued
"start moving north": no north pulse is issued, the stop is marked
finished, and the start instruction is removed so it never runs again. -/
theorem c2_stop_moving_counterexample :
    nextInstruction startStopNorthState.instructions = some Inst.stopMovingNorth ∧
    Inst.stopMovingNorth ≠ Inst.startMovingNorth ∧
    (step cfgUnit startStopNorthState envZero).pulses = [] ∧
    (step cfgUnit startStopNorthState envZero).finStopMovingNorth = true ∧
    Inst.startMovingNorth ∉ (step cfgUnit startStopNorthState envZero).instructions := by
  decide

/-- C2 (amended): when the facade appends "stop moving north" at the tail of
any queue, the worker executes that stop instruction NEXT (before any queued
"start moving north"); executing it issues no pulse, marks the stop
finished, and — provided at most one "start moving north" is queued, the
design's cooperative invariant — removes every queued "start moving north",
so the queued start instruction never issues another pulse. -/
theorem c2_stop_moving_preempts (cfg : Config) (s : WorkerState) (env : Env)
    (q : List Inst) (hq : s.instructions = q ++ [Inst.stopMovingNorth])
    (hcount : countName "start moving north" q ≤ 1) :
    nextInstruction s.instructions = some Inst.stopMovingNorth ∧
    (step cfg s env).pulses = s.pulses ∧
    (step cfg s env).finStopMovingNorth = true ∧
    countName "start moving north" (step cfg s env).instructions = 0 := by
  rw [step_concat cfg s env q Inst.stopMovingNorth hq, hq]
  refine ⟨by simp [nextInstruction, List.getLast?_concat], rfl, rfl, ?_⟩
  exact remove_instruction_of_count_le_one "start moving north" q hcount

/-- C2 witness: the amended theorem applied to the concrete queue
`[start moving north, stop moving north]`. -/
theorem c2_stop_moving_preempts_witness :
    nextInstruction startStopNorthState.instructions = some Inst.stopMovingNorth ∧
    (step cfgUnit startStopNorthState envZero).pulses = startStopNorthState.pulses ∧
    (step cfgUnit startStopNorthState envZero).finStopMovingNorth = true ∧
    countName "start moving north"
      (step cfgUnit startStopNorthState envZero).instructions = 0 :=
  c2_stop_moving_preempts cfgUnit startStopNorthState envZero
    [Inst.startMovingNorth] rfl (by decide)

/-! Claim C3: "stop guiding" removes the queued "continue guiding"
instances. -/

/-- Queue state with two adjacent "continue guiding" entries ahead of the
"stop guiding" at the tail. -/
def doubleGuideState : WorkerState :=
  { initialWorkerState with
    instructions := [Inst.continueGuiding, Inst.continueGuiding, Inst.stopGuiding] }

/-- C3 counterexample: `remove_instruction` iterates over the list it is
mutating, so with two ADJACENT "continue guiding" entries queued, executing
"stop guiding" removes only one of them: one "continue guiding" instance
survives in the queue, refuting the claim for every queue state. -/
theorem c3_stop_guiding_counterexample :
    nextInstruction doubleGuideState.instructions = some Inst.stopGuiding ∧
    (step cfgUnit doubleGuideState envZero).instructions = [Inst.continueGuiding] ∧
    countName "continue guiding" (step cfgUnit doubleGuideState envZero).instructions = 1 := by
  decide

/-- C3 (amended): executing "stop guiding" marks it finished and, provided
the queue holds at most one "continue guiding" instance (the cooperative
single-template invariant; it fails with two adjacent instances), removes
every queued "continue guiding": the queue afterwards contains zero
"continue guiding" entries. -/
theorem c3_stop_guiding_removes (cfg : Config) (s : WorkerState) (env : Env)
    (q : List Inst) (hq : s.instructions = q ++ [Inst.stopGuiding])
    (hcount : countName "continue guiding" q ≤ 1) :
    countName "continue guiding" (step cfg s env).instructions = 0 ∧
    (step cfg s env).finStopGuiding = true := by
  rw [step_concat cfg s env q Inst.stopGuiding hq]
  exact ⟨remove_instruction_of_count_le_one "continue guiding" q hcount, rfl⟩

/-- C3 witness: the amended theorem applied to the queue
`[continue guiding, stop guiding]` (the state reached right after
`start_guiding` and `stop_guiding`). -/
theorem c3_stop_guiding_removes_witness :
    countName "continue guiding"
      (step cfgUnit { initialWorkerState with
          instructions := [Inst.continueGuiding, Inst.stopGuiding] } envZero).instructions = 0 ∧
    (step cfgUnit { initialWorkerState with
        instructions := [Inst.continueGuiding, Inst.stopGuiding] } envZero).finStopGuiding = true :=
  c3_stop_guiding_removes cfgUnit
    { initialWorkerState with instructions := [Inst.continueGuiding, Inst.stopGuiding] }
    envZero [Inst.continueGuiding] rfl (by decide)

/-! Claim C4: the readout correction stored by `slew_to`. -/

/-- C4 counterexample: with the desired-minus-measured RA difference equal
to pi (modelled by the parameter value `piv = 3`, `ra = 3`, measured `0`),
the stored RA correction is `-pi`, which does NOT lie in the claimed
half-open interval `(-pi, pi]`: the wrap lands on the other endpoint. -/
theorem c4_wrap_counterexample :
    readout_correction_ra 3 3 0 = -3 ∧ ¬ (-3 : ℚ) < readout_correction_ra 3 3 0 := by
  have h : readout_correction_ra 3 3 0 = -3 := by
    norm_num [readout_correction_ra, pymod]
  exact ⟨h, by rw [h]; norm_num⟩

/-- C4 (amended): after `slew_to`, the stored RA readout correction equals
desired RA minus measured RA wrapped into the half-open interval
`[-pi, pi)` (closed at `-pi`, open at `pi`, pi being any positive value of
the parameter standing for `math.pi`): it is congruent to the difference
modulo `2 pi` and lies in `[-pi, pi)`; the DE readout correction equals
desired DE minus measured DE, unwrapped. -/
theorem c4_readout_correction (piv ra rect_lookup de decl_lookup : ℚ)
    (hpi : 0 < piv) :
    -piv ≤ readout_correction_ra piv ra rect_lookup ∧
    readout_correction_ra piv ra rect_lookup < piv ∧
    (∃ k : ℤ, readout_correction_ra piv ra rect_lookup = ra - rect_lookup + 2 * piv * k) ∧
    readout_correction_de de decl_lookup = de - decl_lookup := by
  have h2 : (0 : ℚ) < 2 * piv := by linarith
  set x := ra - rect_lookup + piv with hx
  have hf1 : (⌊x / (2 * piv)⌋ : ℚ) * (2 * piv) ≤ x :=
    (le_div_iff₀ h2).mp (Int.floor_le (x / (2 * piv)))
  have hf2 : x < ((⌊x / (2 * piv)⌋ : ℚ) + 1) * (2 * piv) :=
    (div_lt_iff₀ h2).mp (Int.lt_floor_add_one (x / (2 * piv)))
  have hc : readout_correction_ra piv ra rect_lookup =
      x - 2 * piv * (⌊x / (2 * piv)⌋ : ℚ) - piv := by
    simp [readout_correction_ra, pymod, hx]
  refine ⟨by rw [hc]; nlinarith, by rw [hc]; nlinarith, ⟨-⌊x / (2 * piv)⌋, ?_⟩, rfl⟩
  rw [hc, hx]
  push_cast
  ring

/-- C4 witness: the amended theorem applied at `piv = 3`, desired RA `1`,
measured RA `0`, desired DE `5`, measured DE `2`. -/
theorem c4_readout_correction_witness :
    (0 : ℚ) < 3 ∧
    (-3 ≤ readout_correction_ra 3 1 0 ∧
     readout_correction_ra 3 1 0 < 3 ∧
     (∃ k : ℤ, readout_correction_ra 3 1 0 = 1 - 0 + 2 * 3 * k) ∧
     readout_correction_de 5 2 = 5 - 2) :=
  ⟨by norm_num, c4_readout_correction 3 1 0 5 2 (by norm_num)⟩

/-! Claim C5: the under-shoot-only pulse law of "continue guiding". -/

/-- C5: the per-axis pulse test of "continue guiding" fires if and only if
the magnitude of the measured displacement from the start position is
strictly less than the magnitude of the predicted displacement
`(start + rate * elapsed) - start = rate * elapsed`; in particular no pulse
is issued once the measured displacement magnitude reaches or exceeds the
predicted displacement magnitude. -/
theorem c5_pulse_iff_undershoot (start rate t0 t cur : ℚ) :
    pulseCond start rate t0 t cur = true ↔ |cur - start| < |rate * (t - t0)| := by
  unfold pulseCond
  rw [decide_eq_true_eq]
  rw [show start + rate * (t - t0) - start = rate * (t - t0) by ring]

/-! Claim C10: a zero rate on an axis. -/

/-- C10: with a rate of exactly zero on an axis, the predicted displacement
is zero, so the pulse test of "continue guiding" never fires on that axis,
whatever the measured position and the elapsed time; the unguarded
`numpy.sign(0) = 0` makes "start guiding" select the negative-direction
code (west/south) for that axis, but it is never used. -/
theorem c10_zero_rate_never_pulses (start t0 t cur : ℚ) (dirPos dirNeg : Nat) :
    pulseCond start 0 t0 t cur = false ∧ guideDirection 0 dirPos dirNeg = dirNeg := by
  constructor
  · unfold pulseCond
    rw [decide_eq_false_iff_not]
    rw [show start + 0 * (t - t0) - start = 0 by ring]
    simp
  · simp [guideDirection, npSign]

/-! Claim C6: the calibration procedure. -/

/-- C6: executing "calibrate" when the driver reports a strictly lower RA
after the east test pulse than before it swaps the east/west direction
codes (east becomes 3, west becomes 2); when the reported declination does
not decrease under the north test pulse, the north/south codes are left
unchanged; and the instruction is marked finished. -/
theorem c6_calibrate_swaps_east_west (cfg : Config) (s : WorkerState) (env : Env)
    (q : List Inst) (len : ℤ)
    (hq : s.instructions = q ++ [Inst.calibrate len])
    (hra : env.ra2 < env.ra) (hde : ¬ env.de2 < env.de) :
    (step cfg s env).dirEast = 3 ∧ (step cfg s env).dirWest = 2 ∧
    (step cfg s env).dirNorth = s.dirNorth ∧ (step cfg s env).dirSouth = s.dirSouth ∧
    (step cfg s env).finCalibrate = true := by
  rw [step_concat cfg s env q (Inst.calibrate len) hq]
  simp [execInst, hra, hde]

/-- C6 witness: the theorem applied to a concrete driver whose RA reading
drops from 2 to 1 under the east pulse and whose DE reading stays at 5
under the north pulse, starting from the default direction codes. -/
theorem c6_calibrate_swaps_east_west_witness :
    (step cfgUnit { initialWorkerState with instructions := [Inst.calibrate 100] }
        ⟨0, 2, 5, 1, 5⟩).dirEast = 3 ∧
    (step cfgUnit { initialWorkerState with instructions := [Inst.calibrate 100] }
        ⟨0, 2, 5, 1, 5⟩).dirWest = 2 ∧
    (step cfgUnit { initialWorkerState with instructions := [Inst.calibrate 100] }
        ⟨0, 2, 5, 1, 5⟩).dirNorth =
      ({ initialWorkerState with instructions := [Inst.calibrate 100] } : WorkerState).dirNorth ∧
    (step cfgUnit { initialWorkerState with instructions := [Inst.calibrate 100] }
        ⟨0, 2, 5, 1, 5⟩).dirSouth =
      ({ initialWorkerState with instructions := [Inst.calibrate 100] } : WorkerState).dirSouth ∧
    (step cfgUnit { initialWorkerState with instructions := [Inst.calibrate 100] }
        ⟨0, 2, 5, 1, 5⟩).finCalibrate = true :=
  c6_calibrate_swaps_east_west cfgUnit
    { initialWorkerState with instructions := [Inst.calibrate 100] }
    ⟨0, 2, 5, 1, 5⟩ [] 100 rfl (by norm_num) (by norm_num)

/-! Claim C7: the corrected round trip through slew and look-up. -/

/-- C7: for every target `(ra, de)` and every driver whose reported position
carries a fixed systematic offset and no noise, `slew_to(ra, de)` followed
by the corrected `lookup_tel_position()` returns exactly the target: the
stored correction cancels the fixed bias, exactly in DE and modulo `2 pi`
in RA (`piv` standing for `math.pi`). -/
theorem c7_round_trip (piv biasRa biasDe ra de : ℚ) :
    ∃ k : ℤ,
      (lookup_tel_position (slew_to_corrections piv biasRa biasDe ra de)
          (biased_lookup biasRa ra) (biased_lookup biasDe de)).1 = ra + 2 * piv * k ∧
      (lookup_tel_position (slew_to_corrections piv biasRa biasDe ra de)
          (biased_lookup biasRa ra) (biased_lookup biasDe de)).2 = de := by
  refine ⟨-⌊(ra - (ra + biasRa) + piv) / (2 * piv)⌋, ?_, ?_⟩
  · simp only [lookup_tel_position, slew_to_corrections, readout_correction_ra,
      pymod, biased_lookup]
    push_cast
    ring
  · simp [lookup_tel_position, slew_to_corrections, readout_correction_de, biased_lookup]

/-! Claim C9: the direction mapping stays a permutation within its axis
pairs. -/

/-- The axis-pair property of the direction mapping:
`{north, south} = {0, 1}` and `{east, west} = {2, 3}`. -/
def dirPairsOk (s : WorkerState) : Prop :=
  (s.dirNorth = 0 ∧ s.dirSouth = 1 ∨ s.dirNorth = 1 ∧ s.dirSouth = 0) ∧
  (s.dirEast = 2 ∧ s.dirWest = 3 ∨ s.dirEast = 3 ∧ s.dirWest = 2)

instance (s : WorkerState) : Decidable (dirPairsOk s) := by
  unfold dirPairsOk; infer_instance

/-- The per-axis direction codes captured inside an active guiding session
are valid driver codes. -/
def guideDirsOk : Option GuideState → Bool
  | none => true
  | some g => decide (g.dirRa < 4) && decide (g.dirDe < 4)

/-- The direction-mapping invariant: the axis pairs are permutations of
their defaults, and any captured guiding directions are valid codes. -/
def dirInv (s : WorkerState) : Prop :=
  dirPairsOk s ∧ guideDirsOk s.guide = true

theorem getD_four_lt (a b c d dflt : Nat) (i : Nat) (ha : a < 4) (hb : b < 4)
    (hc : c < 4) (hd : d < 4) (hdflt : dflt < 4) :
    [a, b, c, d].getD i dflt < 4 := by
  match i with
  | 0 => exact ha
  | 1 => exact hb
  | 2 => exact hc
  | 3 => exact hd
  | n + 4 => simpa [List.getD] using hdflt

theorem execInst_preserves_dirInv (cfg : Config) (s : WorkerState) (env : Env)
    (inst : Inst) (hs : dirInv s) :
    dirInv (execInst cfg s env inst) ∧
    ∀ p ∈ (execInst cfg s env inst).pulses, p ∈ s.pulses ∨ p.1 < 4 := by
  obtain ⟨⟨hns, hew⟩, hg⟩ := hs
  have hn4 : s.dirNorth < 4 := by rcases hns with ⟨h1, _⟩ | ⟨h1, _⟩ <;> omega
  have hs4 : s.dirSouth < 4 := by rcases hns with ⟨_, h1⟩ | ⟨_, h1⟩ <;> omega
  have he4 : s.dirEast < 4 := by rcases hew with ⟨h1, _⟩ | ⟨h1, _⟩ <;> omega
  have hw4 : s.dirWest < 4 := by rcases hew with ⟨_, h1⟩ | ⟨_, h1⟩ <;> omega
  cases inst with
  | slewTo rect decl => exact ⟨⟨⟨hns, hew⟩, hg⟩, fun p hp => Or.inl hp⟩
  | lookupTelPosition => exact ⟨⟨⟨hns, hew⟩, hg⟩, fun p hp => Or.inl hp⟩
  | calibrate len =>
    by_cases h1 : env.ra2 < env.ra <;> by_cases h2 : env.de2 < env.de <;>
      simp only [execInst, h1, h2, if_true, if_false, ite_true, ite_false] <;>
      refine ⟨⟨⟨?_, ?_⟩, hg⟩, ?_⟩ <;>
      first
        | (intro p hp
           rcases List.mem_append.mp hp with hp' | hp'
           · rcases List.mem_append.mp hp' with hp'' | hp''
             · exact Or.inl hp''
             · rw [List.mem_singleton] at hp''
               subst hp''
               exact Or.inr (by omega)
           · rw [List.mem_singleton] at hp'
             subst hp'
             exact Or.inr (by omega))
        | tauto
  | startGuiding rateRa rateDe =>
    refine ⟨⟨⟨hns, hew⟩, ?_⟩, fun p hp => Or.inl hp⟩
    simp only [execInst, guideDirsOk, Bool.and_eq_true, decide_eq_true_eq]
    constructor
    · unfold guideDirection
      split
      · exact he4
      · exact hw4
    · unfold guideDirection
      split
      · exact hn4
      · exact hs4
  | continueGuiding =>
    rcases hgs : s.guide with _ | g
    · rw [hgs] at hg
      simp only [execInst, hgs]
      exact ⟨⟨⟨hns, hew⟩, hg⟩, fun p hp => Or.inl hp⟩
    · rw [hgs] at hg
      simp only [guideDirsOk, Bool.and_eq_true, decide_eq_true_eq] at hg
      obtain ⟨hra4, hde4⟩ := hg
      simp only [execInst, hgs]
      refine ⟨⟨⟨hns, hew⟩, by simp [guideDirsOk, hra4, hde4]⟩, ?_⟩
      intro p hp
      by_cases c1 : pulseCond g.startRa g.rateRa g.startTime env.time env.ra <;>
        by_cases c2 : pulseCond g.startDe g.rateDe g.startTime env.time env.de <;>
        simp only [c1, c2, if_true, if_false, ite_true, ite_false] at hp
      · rcases List.mem_append.mp hp with hp' | hp'
        · rcases List.mem_append.mp hp' with hp'' | hp''
          · exact Or.inl hp''
          · rw [List.mem_singleton] at hp''; subst hp''; exact Or.inr hra4
        · rw [List.mem_singleton] at hp'; subst hp'; exact Or.inr hde4
      · rcases List.mem_append.mp hp with hp' | hp'
        · exact Or.inl hp'
        · rw [List.mem_singleton] at hp'; subst hp'; exact Or.inr hra4
      · rcases List.mem_append.mp hp with hp' | hp'
        · exact Or.inl hp'
        · rw [List.mem_singleton] at hp'; subst hp'; exact Or.inr hde4
      · exact Or.inl hp
  | stopGuiding => exact ⟨⟨⟨hns, hew⟩, hg⟩, fun p hp => Or.inl hp⟩
  | startMovingNorth =>
    refine ⟨⟨⟨hns, hew⟩, hg⟩, fun p hp => ?_⟩
    rcases List.mem_append.mp hp with hp' | hp'
    · exact Or.inl hp'
    · rw [List.mem_singleton] at hp'; subst hp'; exact Or.inr hn4
  | stopMovingNorth => exact ⟨⟨⟨hns, hew⟩, hg⟩, fun p hp => Or.inl hp⟩
  | startMovingSouth =>
    refine ⟨⟨⟨hns, hew⟩, hg⟩, fun p hp => ?_⟩
    rcases List.mem_append.mp hp with hp' | hp'
    · exact Or.inl hp'
    · rw [List.mem_singleton] at hp'; subst hp'; exact Or.inr hs4
  | stopMovingSouth => exact ⟨⟨⟨hns, hew⟩, hg⟩, fun p hp => Or.inl hp⟩
  | startMovingEast =>
    refine ⟨⟨⟨hns, hew⟩, hg⟩, fun p hp => ?_⟩
    rcases List.mem_append.mp hp with hp' | hp'
    · exact Or.inl hp'
    · rw [List.mem_singleton] at hp'; subst hp'; exact Or.inr he4
  | stopMovingEast => exact ⟨⟨⟨hns, hew⟩, hg⟩, fun p hp => Or.inl hp⟩
  | startMovingWest =>
    refine ⟨⟨⟨hns, hew⟩, hg⟩, fun p hp => ?_⟩
    rcases List.mem_append.mp hp with hp' | hp'
    · exact Or.inl hp'
    · rw [List.mem_singleton] at hp'; subst hp'; exact Or.inr hw4
  | stopMovingWest => exact ⟨⟨⟨hns, hew⟩, hg⟩, fun p hp => Or.inl hp⟩
  | pulseCorrection direction len =>
    refine ⟨⟨⟨hns, hew⟩, hg⟩, fun p hp => ?_⟩
    rcases List.mem_append.mp hp with hp' | hp'
    · exact Or.inl hp'
    · rw [List.mem_singleton] at hp'
      subst hp'
      exact Or.inr (getD_four_lt _ _ _ _ _ direction hn4 hs4 he4 hw4 hn4)
  | terminate => exact ⟨⟨⟨hns, hew⟩, hg⟩, fun p hp => Or.inl hp⟩

/-- C9: the direction mapping is a permutation within its axis pairs
(`{north, south} = {0, 1}` and `{east, west} = {2, 3}`, together with the
validity of any captured guiding directions) at worker initialization, and
every worker step preserves it; consequently every `PulseGuide` call a step
issues through the mapping carries a driver code in `{0, 1, 2, 3}`. -/
theorem c9_direction_mapping_invariant :
    dirInv initialWorkerState ∧
    ∀ (cfg : Config) (s : WorkerState) (env : Env), dirInv s →
      dirInv (step cfg s env) ∧
      ∀ p ∈ (step cfg s env).pulses, p ∈ s.pulses ∨ p.1 < 4 := by
  constructor
  · exact ⟨by decide, rfl⟩
  · intro cfg s env hs
    unfold step
    cases hnext : nextInstruction s.instructions with
    | none => exact ⟨hs, fun p hp => Or.inl hp⟩
    | some inst =>
      have hs' : dirInv { s with instructions := s.instructions.dropLast } :=
        ⟨hs.1, hs.2⟩
      exact execInst_preserves_dirInv cfg
        { s with instructions := s.instructions.dropLast } env inst hs'

/-- C9 witness: the invariant holds at the initial state and is carried
through one step from it. -/
theorem c9_direction_mapping_invariant_witness :
    dirInv (step cfgUnit initialWorkerState envZero) ∧
    ∀ p ∈ (step cfgUnit initialWorkerState envZero).pulses,
      p ∈ initialWorkerState.pulses ∨ p.1 < 4 :=
  c9_direction_mapping_invariant.2 cfgUnit initialWorkerState envZero
    ⟨by decide, rfl⟩

/-! Claim C8: startup failure semantics of the facade constructor. -/

theorem telescopeInitLoop_skip (s : Nat → WorkerObs) (i r : Nat)
    (he : (s i).errorMsg = "") (hi : (s i).inited = false) :
    telescopeInitLoop s i (r + 1) = telescopeInitLoop s (i + 1) r := by
  simp [telescopeInitLoop, he, hi]

theorem telescopeInitLoop_reach (t : Nat) (final : WorkerObs) :
    ∀ (d i r : Nat), t - i = d → i ≤ t → t ≤ i + r →
      telescopeInitLoop (workerTrace t final) i r =
        telescopeInitLoop (workerTrace t final) t (r - d) := by
  intro d
  induction d with
  | zero =>
    intro i r hd hi _
    have : i = t := by omega
    subst this
    rfl
  | succ d ih =>
    intro i r hd hi hr
    have hit : i < t := by omega
    obtain ⟨r', rfl⟩ : ∃ r', r = r' + 1 := ⟨r - 1, by omega⟩
    rw [telescopeInitLoop_skip (workerTrace t final) i r'
      (by simp [workerTrace, hit]) (by simp [workerTrace, hit])]
    rw [ih (i + 1) r' (by omega) (by omega) (by omega)]
    congr 1
    omega

theorem telescopeInitLoop_timeout (s : Nat → WorkerObs) :
    ∀ (r i : Nat), (∀ j, i ≤ j → j < i + r → (s j).errorMsg = "") →
      (s (i + r)).inited = false →
      (∀ j, i ≤ j → j < i + r → (s j).inited = false) →
      telescopeInitLoop s i r = Except.error TelErr.timeout := by
  intro r
  induction r with
  | zero =>
    intro i _ hend _
    simp only [telescopeInitLoop, initFinalCheck]
    rw [show i + 0 = i from rfl] at hend
    simp [hend]
  | succ r ih =>
    intro i herr hend hinit
    rw [telescopeInitLoop_skip s i r (herr i le_rfl (by omega)) (hinit i le_rfl (by omega))]
    refine ih (i + 1) (fun j h1 h2 => herr j (by omega) (by omega))
      (by rw [show i + 1 + r = i + (r + 1) by omega]; exact hend)
      (fun j h1 h2 => hinit j (by omega) (by omega))

/-- C8: the facade constructor raises a startup exception exactly when
worker initialization fails.  With the worker's shared fields reaching
their final value at poll `t`: (1) if driver connection or capability
negotiation raised a message `msg ≠ ""` and the facade observes it within
`polling_time_out_count` polls, the constructor raises an exception
carrying exactly that string, and the worker has not entered the main
loop; (2) if the worker initialized successfully and in time, the
constructor returns normally and the worker entered the main loop; (3) if
the worker never sets `initialized` within the polling budget (and no
error string is observed), the constructor raises the distinct timeout
exception. -/
theorem c8_startup_exception (count t : Nat) (cr : Except String Unit) :
    (∀ msg : String, cr = Except.error msg → msg ≠ "" → t < count →
      telescope_init count (workerTrace t (workerStartup true cr).1) =
          Except.error (TelErr.connection msg) ∧
        (workerStartup true cr).2 = false) ∧
    (cr = Except.ok () → t ≤ count →
      telescope_init count (workerTrace t (workerStartup true cr).1) = Except.ok () ∧
        (workerStartup true cr).2 = true) ∧
    (∀ s : Nat → WorkerObs, (∀ i, i < count → (s i).errorMsg = "") →
      (∀ i, i ≤ count → (s i).inited = false) →
      telescope_init count s = Except.error TelErr.timeout) := by
  refine ⟨?_, ?_, ?_⟩
  · rintro msg rfl hmsg ht
    constructor
    · have hobs : (workerStartup true (Except.error msg)).1 =
          { errorMsg := msg, inited := false } := rfl
      rw [telescope_init, hobs,
        telescopeInitLoop_reach t { errorMsg := msg, inited := false } t 0 count
          (by omega) (by omega) (by omega)]
      obtain ⟨r', hr'⟩ : ∃ r', count - t = r' + 1 := ⟨count - t - 1, by omega⟩
      rw [hr']
      have htr : workerTrace t { errorMsg := msg, inited := false } t =
          { errorMsg := msg, inited := false } := by simp [workerTrace]
      simp [telescopeInitLoop, htr, hmsg]
    · rfl
  · rintro rfl ht
    refine ⟨?_, rfl⟩
    have hobs : (workerStartup true (Except.ok ())).1 =
        { errorMsg := "", inited := true } := rfl
    rw [telescope_init, hobs,
      telescopeInitLoop_reach t { errorMsg := "", inited := true } t 0 count
        (by omega) (by omega) (by omega)]
    have htr : workerTrace t { errorMsg := "", inited := true } t =
        { errorMsg := "", inited := true } := by simp [workerTrace]
    rcases Nat.eq_or_lt_of_le ht with rfl | hlt
    · rw [Nat.sub_self]
      simp [telescopeInitLoop, initFinalCheck, htr]
    · obtain ⟨r', hr'⟩ : ∃ r', count - t = r' + 1 := ⟨count - t - 1, by omega⟩
      rw [hr']
      simp [telescopeInitLoop, initFinalCheck, htr]
  · intro s herr hinit
    refine telescopeInitLoop_timeout s count 0
      (fun j _ hj => herr j (by omega)) ?_
      (fun j _ hj => hinit j (by omega))
    rw [show 0 + count = count by omega]
    exact hinit count (by omega)

/-- C8 witness: a worker whose driver connection fails with message "boom"
(observed at poll 1 of 3) makes the constructor raise the connection
exception carrying "boom", and the worker never entered the main loop. -/
theorem c8_startup_exception_witness :
    telescope_init 3 (workerTrace 1 (workerStartup true (Except.error "boom")).1) =
        Except.error (TelErr.connection "boom") ∧
      (workerStartup true (Except.error "boom")).2 = false :=
  (c8_startup_exception 3 1 (Except.error "boom")).1 "boom" rfl
    (by decide) (by omega)

end MPM
